import Mathlib

/-!
Verification of the DBLP XML dump parser (dblp_parser.py).

The Python source is shallowly embedded: the XML tree is modelled as lists
of elements (tag, attributes, children), Python dictionaries as association
lists with insert-or-update semantics, and fallible code (KeyError,
ValueError) as values of the Except monad carrying the error message.
-/

set_option maxHeartbeats 1000000

deriving instance DecidableEq for Except

/-- A value stored in an extracted-record dictionary: Python puts either a
string (scalar feature) or a list of strings (multi-valued feature). -/
inductive Value where
  | s : String → Value
  | l : List String → Value
deriving DecidableEq

/-- A Python dict from field name to value, modelled as an association list
in insertion order with unique keys (as Python dicts preserve). -/
abbrev PyDict := List (String × Value)

/-- First-match association-list lookup: Python dict read access
(returning none where Python raises KeyError or dict.get returns None). -/
def assocGet {α : Type} : List (String × α) → String → Option α
  | [], _ => none
  | (k', v) :: rest, k => if k' = k then some v else assocGet rest k

/-- Python dict write access: replace the value at the first occurrence of
the key, keeping its position, or append a fresh key at the end. -/
def assocSet {α : Type} : List (String × α) → String → α → List (String × α)
  | [], k, v => [(k, v)]
  | (k', v') :: rest, k, v =>
    if k' = k then (k', v) :: rest else (k', v') :: assocSet rest k v

/-- The keys of an association list, in order. -/
def assocKeys {α : Type} (l : List (String × α)) : List String :=
  l.map (fun p => p.1)

def dictGet (d : PyDict) (k : String) : Option Value := assocGet d k

def dictSet (d : PyDict) (k : String) (v : Value) : PyDict := assocSet d k v

def dictKeys (d : PyDict) : List String := assocKeys d

/-! ## The page-count normalizer, DBLP.__count_pages -/

/-- Splitting a character list on a separator, as Python re.split on a
single-character pattern: n separators yield n+1 (possibly empty) parts. -/
def splitOnChar (sep : Char) : List Char → List (List Char)
  | [] => [[]]
  | c :: rest =>
    match splitOnChar sep rest with
    | [] => [[c]]
    | p :: ps => if c = sep then [] :: p :: ps else (c :: p) :: ps

/-- Maximal runs of decimal digits, left to right, as Python
re.findall of one-or-more digits. The accumulator holds the current run
reversed. -/
def digitRunsAux : List Char → List Char → List (List Char)
  | [], cur => if cur.isEmpty then [] else [cur.reverse]
  | c :: rest, cur =>
    if c.isDigit then digitRunsAux rest (c :: cur)
    else if cur.isEmpty then digitRunsAux rest []
    else cur.reverse :: digitRunsAux rest []

/-- Numeric value of a run of decimal digits (Python int on a digit string). -/
def digitsToNat (ds : List Char) : Nat :=
  ds.foldl (fun n c => n * 10 + (c.toNat - 48)) 0

/-- int(re.findall of digit runs, last element): the last maximal digit run
in the subpart, or none when no digits occur (Python raises IndexError). -/
def lastDigitRun (l : List Char) : Option Nat :=
  ((digitRunsAux l []).getLast?).map digitsToNat

/-- The list comprehension over the dash-separated subparts: every subpart
must contain a digit run, else the whole comprehension raises IndexError. -/
def parseSubparts : List (List Char) → Option (List Nat)
  | [] => some []
  | sp :: rest =>
    match lastDigitRun sp, parseSubparts rest with
    | some n, some ns => some (n :: ns)
    | _, _ => none

/-- Contribution of one comma-separated segment to the running count,
mirroring the loop body of DBLP.__count_pages: more than two dash-subparts
contribute 0; a failed digit search contributes 0 (IndexError branch); one
parsed subpart contributes 1; two parsed subparts (a, b) contribute
b - a + 1 -- note the source adds this even when it is negative. -/
def segmentContribution (part : List Char) : Int :=
  let subparts := splitOnChar '-' part
  if subparts.length > 2 then 0
  else
    match parseSubparts subparts with
    | none => 0
    | some ns =>
      match ns with
      | [_] => 1
      | [a, b] => (b : Int) - (a : Int) + 1
      | _ => 0

/-- DBLP.__count_pages. The input is an Option String: Python passes the
text of the child element, which may be None, making re.split raise a TypeError
that the function catches and turns into the empty string. -/
def countPages : Option String → String
  | none => ""
  | some pages =>
    let cnt : Int :=
      (splitOnChar ',' pages.toList).foldl
        (fun cnt part => cnt + segmentContribution part) 0
    if cnt = 0 then "" else toString cnt

/-! ## The feature schema -/

/-- DBLP.all_elements: the recognized top-level record-type tags. -/
def allElements : List String :=
  ["article", "inproceedings", "proceedings", "book", "incollection",
   "phdthesis", "mastersthesis", "www", "person", "data"]

/-- DBLP.all_features: feature name to cardinality tag, in source order. -/
def allFeatures : List (String × String) :=
  [("address", "str"), ("author", "list"), ("booktitle", "str"),
   ("cdrom", "str"), ("chapter", "str"), ("cite", "list"),
   ("crossref", "str"), ("editor", "list"), ("ee", "list"),
   ("isbn", "str"), ("journal", "str"), ("month", "str"),
   ("note", "str"), ("number", "str"), ("pages", "str"),
   ("publisher", "str"), ("publnr", "str"), ("school", "str"),
   ("series", "str"), ("title", "str"), ("url", "str"),
   ("volume", "str"), ("year", "str")]

/-- self.all_features[f] as an optional lookup. -/
def featureType (f : String) : Option String := assocGet allFeatures f

/-- The names of the feature schema (iterating the all_features dict). -/
def allFeatureKeys : List String := assocKeys allFeatures

/-- DBLP.__check_features: None or an empty set resolve to the full schema;
otherwise names outside the schema are dropped (with a warning) and the
remaining names are kept. -/
def checkFeatures : Option (List String) → List String
  | none => allFeatureKeys
  | some fs =>
    if fs.isEmpty then allFeatureKeys
    else fs.filter (fun f => decide (f ∈ allFeatureKeys))

/-! ## XML elements and the record extractor -/

/-- A child node of a record element: its tag, its text content (None
possible, as in lxml), the serialized markup of its inner content, and the
tail text that the lxml tostring appends after the closing tag. -/
structure Child where
  tag : String
  text : Option String
  inner : String
  tail : String
deriving DecidableEq

/-- A top-level element of the dump: tag, attribute dictionary (key, mdate
live here), and child nodes. -/
structure Element where
  tag : String
  attrib : List (String × String)
  children : List Child
deriving DecidableEq

/-- lxml etree.tostring on a child element: opening tag, serialized inner
content, closing tag, then the tail text. -/
def childToString (c : Child) : String :=
  "<" ++ c.tag ++ ">" ++ c.inner ++ "</" ++ c.tag ++ ">" ++ c.tail

/-- One pass of Python re.sub removing every shortest-match markup tag and
every newline. The second argument holds the characters buffered since an
unmatched opening angle bracket (reversed), mirroring the fact that the
dot of the pattern does not cross newlines: a bracket never closed before
a newline or the end of input is left verbatim. -/
def stripSubAux : List Char → Option (List Char) → List Char
  | [], none => []
  | [], some buf => '<' :: buf.reverse
  | c :: rest, none =>
    if c = '<' then stripSubAux rest (some [])
    else if c = '\n' then stripSubAux rest none
    else c :: stripSubAux rest none
  | c :: rest, some buf =>
    if c = '>' then stripSubAux rest none
    else if c = '\n' then ('<' :: buf.reverse) ++ stripSubAux rest none
    else stripSubAux rest (some (c :: buf))

/-- re.sub of markup tags and newlines with the empty string, as applied to
the serialized title element. -/
def stripMarkup (s : String) : String :=
  (stripSubAux s.toList none).asString

/-- The per-child derived text of DBLP.__extract_features: a title child is
serialized and stripped of markup and newlines, a pages child goes through
the page-count normalizer, anything else contributes its raw text. -/
def childText (c : Child) : Option String :=
  if c.tag = "title" then some (stripMarkup (childToString c))
  else if c.tag = "pages" then some (countPages c.text)
  else c.text

/-- DBLP.__init_features: give every requested feature its
cardinality-appropriate empty value, on top of the already-initialised
attribute dictionary. The schema lookup raises KeyError for a name outside
the schema. -/
def initFeatures : List String → PyDict → Except String PyDict
  | [], attrs => .ok attrs
  | f :: rest, attrs =>
    match featureType f with
    | none => .error ("KeyError: " ++ f)
    | some t =>
      if t = "str" then initFeatures rest (dictSet attrs f (.s ""))
      else if t = "list" then initFeatures rest (dictSet attrs f (.l []))
      else initFeatures rest attrs

/-- attributes.get on a list-valued feature slot. In runs reaching this
read the slot was initialised to a list; on a str or missing slot Python
would raise a TypeError when appending, a state unreachable from the
entry points. -/
def dictGetList (d : PyDict) (k : String) : List String :=
  match dictGet d k with
  | some (.l xs) => xs
  | _ => []

/-- The child loop of DBLP.__extract_features. Returns the updated
dictionary together with the number of times the except-KeyError branch
(schema lookup failure for a tag inside the requested set) executed. -/
def processChildren (fs : List String) : List Child → PyDict → PyDict × Nat
  | [], d => (d, 0)
  | c :: rest, d =>
    if c.tag ∈ fs then
      match childText c with
      | none => processChildren fs rest d
      | some t =>
        if 0 < t.length then
          match featureType c.tag with
          | some ft =>
            if ft = "str" then processChildren fs rest (dictSet d c.tag (.s t))
            else if ft = "list" then
              processChildren fs rest (dictSet d c.tag (.l (dictGetList d c.tag ++ [t])))
            else processChildren fs rest d
          | none =>
            let p := processChildren fs rest d
            (p.1, p.2 + 1)
        else processChildren fs rest d
    else processChildren fs rest d

/-- The initial attribute dictionary of DBLP.__extract_features: the tag as
type, and when requested the key and mdate attributes, whose dict accesses
raise KeyError when absent. -/
def buildBase (e : Element) (meta : Bool) : Except String PyDict :=
  if meta then
    match assocGet e.attrib "key" with
    | none => .error ("KeyError: key")
    | some k =>
      match assocGet e.attrib "mdate" with
      | none => .error ("KeyError: mdate")
      | some m => .ok [("type", .s e.tag), ("key", .s k), ("mdate", .s m)]
  else .ok [("type", .s e.tag)]

/-- DBLP.__extract_features: base attributes, feature initialisation, then
the child loop (whose KeyError-branch count is reported alongside). -/
def extractFeatures (e : Element) (fs : List String) (meta : Bool) :
    Except String (PyDict × Nat) :=
  match buildBase e meta with
  | .error m => .error m
  | .ok base =>
    match initFeatures fs base with
    | .error m => .error m
    | .ok d0 => .ok (processChildren fs e.children d0)

/-! ## Traversal loops and entry points

Each jsonl loop mirrors: for element in root, extract when the tag is a
recognized record type, write, then __clear_element (clear the node and
delete every preceding sibling). Each dataframe loop mirrors the
corresponding loop without any __clear_element call. The second component
of the result tracks the processed nodes still attached to the parent at
the end, each paired with a flag telling whether it was cleared. -/

/-- The retained-node list after DBLP.__clear_element has run on the node
just processed: the node stays attached but cleared, every preceding
sibling has been deleted from the parent. -/
def clearElement (e : Element) : List (Element × Bool) := [(e, true)]

def invalidOutputMsg : String :=
  "ValueError: Outputs available are jsonl, or dataframe."

def noSavePathMsg : String := "ValueError: No save path provided."

/-- The jsonl loop of DBLP.parse_all. -/
def parseAllJsonlLoop (fs : List String) (meta : Bool) :
    List Element → List (Element × Bool) →
    Except String (List PyDict × List (Element × Bool))
  | [], ret => .ok ([], ret)
  | e :: rest, _ret =>
    if e.tag ∈ allElements then
      match extractFeatures e fs meta with
      | .error m => .error m
      | .ok (d, _) =>
        (parseAllJsonlLoop fs meta rest (clearElement e)).map
          (fun p => (d :: p.1, p.2))
    else parseAllJsonlLoop fs meta rest (clearElement e)

/-- The dataframe loop of DBLP.parse_all: no __clear_element call, every
processed node stays attached to the parent, uncleared. -/
def parseAllDfLoop (fs : List String) (meta : Bool) :
    List Element → List (Element × Bool) →
    Except String (List PyDict × List (Element × Bool))
  | [], ret => .ok ([], ret)
  | e :: rest, ret =>
    if e.tag ∈ allElements then
      match extractFeatures e fs meta with
      | .error m => .error m
      | .ok (d, _) =>
        (parseAllDfLoop fs meta rest (ret ++ [(e, false)])).map
          (fun p => (d :: p.1, p.2))
    else parseAllDfLoop fs meta rest (ret ++ [(e, false)])

/-- The jsonl loop of DBLP.parse_by_year: the record dict is read at key
year unconditionally (KeyError when absent), and the record is written
exactly when that value equals the year string. -/
def parseByYearJsonlLoop (year : String) (fs : List String) (meta : Bool) :
    List Element → List (Element × Bool) →
    Except String (List PyDict × List (Element × Bool))
  | [], ret => .ok ([], ret)
  | e :: rest, _ret =>
    if e.tag ∈ allElements then
      match extractFeatures e fs meta with
      | .error m => .error m
      | .ok (d, _) =>
        match dictGet d "year" with
        | none => .error ("KeyError: year")
        | some v =>
          if v = .s year then
            (parseByYearJsonlLoop year fs meta rest (clearElement e)).map
              (fun p => (d :: p.1, p.2))
          else parseByYearJsonlLoop year fs meta rest (clearElement e)
    else parseByYearJsonlLoop year fs meta rest (clearElement e)

/-- The dataframe loop of DBLP.parse_by_year. -/
def parseByYearDfLoop (year : String) (fs : List String) (meta : Bool) :
    List Element → List (Element × Bool) →
    Except String (List PyDict × List (Element × Bool))
  | [], ret => .ok ([], ret)
  | e :: rest, ret =>
    if e.tag ∈ allElements then
      match extractFeatures e fs meta with
      | .error m => .error m
      | .ok (d, _) =>
        match dictGet d "year" with
        | none => .error ("KeyError: year")
        | some v =>
          if v = .s year then
            (parseByYearDfLoop year fs meta rest (ret ++ [(e, false)])).map
              (fun p => (d :: p.1, p.2))
          else parseByYearDfLoop year fs meta rest (ret ++ [(e, false)])
    else parseByYearDfLoop year fs meta rest (ret ++ [(e, false)])

/-- The jsonl loop of DBLP.parse_by_years: membership in the year set. -/
def parseByYearsJsonlLoop (years : List String) (fs : List String)
    (meta : Bool) :
    List Element → List (Element × Bool) →
    Except String (List PyDict × List (Element × Bool))
  | [], ret => .ok ([], ret)
  | e :: rest, _ret =>
    if e.tag ∈ allElements then
      match extractFeatures e fs meta with
      | .error m => .error m
      | .ok (d, _) =>
        match dictGet d "year" with
        | none => .error ("KeyError: year")
        | some v =>
          if v ∈ years.map Value.s then
            (parseByYearsJsonlLoop years fs meta rest (clearElement e)).map
              (fun p => (d :: p.1, p.2))
          else parseByYearsJsonlLoop years fs meta rest (clearElement e)
    else parseByYearsJsonlLoop years fs meta rest (clearElement e)

/-- The dataframe loop of DBLP.parse_by_years. -/
def parseByYearsDfLoop (years : List String) (fs : List String)
    (meta : Bool) :
    List Element → List (Element × Bool) →
    Except String (List PyDict × List (Element × Bool))
  | [], ret => .ok ([], ret)
  | e :: rest, ret =>
    if e.tag ∈ allElements then
      match extractFeatures e fs meta with
      | .error m => .error m
      | .ok (d, _) =>
        match dictGet d "year" with
        | none => .error ("KeyError: year")
        | some v =>
          if v ∈ years.map Value.s then
            (parseByYearsDfLoop years fs meta rest (ret ++ [(e, false)])).map
              (fun p => (d :: p.1, p.2))
          else parseByYearsDfLoop years fs meta rest (ret ++ [(e, false)])
    else parseByYearsDfLoop years fs meta rest (ret ++ [(e, false)])

/-- DBLP.parse_all: output-mode validation, feature validation, then the
branch on mode; jsonl without a save path raises before the loop runs. The
returned list holds the written (jsonl) or accumulated (dataframe)
records. -/
def parseAll (doc : List Element) (savePath : Option String)
    (features : Option (List String)) (meta : Bool) (output : String) :
    Except String (List PyDict) :=
  if output ∉ (["jsonl", "dataframe"] : List String) then .error invalidOutputMsg
  else
    let fs := checkFeatures features
    if output = "jsonl" then
      match savePath with
      | none => .error noSavePathMsg
      | some _ => (parseAllJsonlLoop fs meta doc []).map (fun p => p.1)
    else (parseAllDfLoop fs meta doc []).map (fun p => p.1)

/-- DBLP.parse_by_year. -/
def parseByYear (year : String) (doc : List Element) (savePath : Option String)
    (features : Option (List String)) (meta : Bool) (output : String) :
    Except String (List PyDict) :=
  if output ∉ (["jsonl", "dataframe"] : List String) then .error invalidOutputMsg
  else
    let fs := checkFeatures features
    if output = "jsonl" then
      match savePath with
      | none => .error noSavePathMsg
      | some _ => (parseByYearJsonlLoop year fs meta doc []).map (fun p => p.1)
    else (parseByYearDfLoop year fs meta doc []).map (fun p => p.1)

/-- DBLP.parse_by_years. -/
def parseByYears (years : List String) (doc : List Element)
    (savePath : Option String) (features : Option (List String)) (meta : Bool)
    (output : String) : Except String (List PyDict) :=
  if output ∉ (["jsonl", "dataframe"] : List String) then .error invalidOutputMsg
  else
    let fs := checkFeatures features
    if output = "jsonl" then
      match savePath with
      | none => .error noSavePathMsg
      | some _ => (parseByYearsJsonlLoop years fs meta doc []).map (fun p => p.1)
    else (parseByYearsDfLoop years fs meta doc []).map (fun p => p.1)

/-! ## Remaining definitions: empty values and concrete fixtures -/

/-- The cardinality-appropriate empty value a requested feature receives in
DBLP.__init_features: empty string for a scalar, empty list for a
multi-valued feature. -/
def emptyVal (f : String) : Value :=
  match featureType f with
  | some t => if t = "list" then .l [] else .s ""
  | none => .s ""

/-- The end-to-end scenario record: one article node with key a1, mdate
2020-01-01 and year, pages and title children. -/
def articleC8 : Element :=
  { tag := "article",
    attrib := [("key", "a1"), ("mdate", "2020-01-01")],
    children :=
      [{ tag := "year", text := some ("2022"), inner := "2022", tail := "\n" },
       { tag := "pages", text := some ("23-43"), inner := "23-43", tail := "\n" },
       { tag := "title", text := none, inner := "<i>Foo</i> Bar\n", tail := "\n" }] }

/-- A minimal recognized record node with no children. -/
def elA : Element := { tag := "article", attrib := [("key", "a")], children := [] }

/-- A second minimal recognized record node. -/
def elB : Element := { tag := "article", attrib := [("key", "b")], children := [] }

/-- A node whose tag is not a recognized record type. -/
def elOther : Element := { tag := "comment", attrib := [], children := [] }

/-- A record whose year child holds the string 2022. -/
def elY1 : Element :=
  { tag := "article", attrib := [],
    children := [{ tag := "year", text := some ("2022"), inner := "2022", tail := "" }] }

/-- A record whose year child holds the string 02022: numerically equal to
2022 but textually different. -/
def elY2 : Element :=
  { tag := "article", attrib := [],
    children := [{ tag := "year", text := some ("02022"), inner := "02022", tail := "" }] }

/-! ## Helper lemmas -/

theorem exceptMap_ok_iff {ε α β : Type} (f : α → β) (x : Except ε α) (b : β) :
    x.map f = .ok b ↔ ∃ a, x = .ok a ∧ f a = b := by
  cases x <;> simp [Except.map]

theorem forallMemOfAll {α : Type} {l : List α} {p : α → Prop} [DecidablePred p]
    (h : l.all (fun x => decide (p x)) = true) : ∀ x ∈ l, p x := by
  intro x hx
  exact of_decide_eq_true (List.all_eq_true.mp h x hx)

theorem assocGet_assocSet {α : Type} (l : List (String × α)) (k k' : String)
    (v : α) :
    assocGet (assocSet l k v) k' = if k' = k then some v else assocGet l k' := by
  induction l with
  | nil =>
    by_cases h : k' = k
    · subst h; simp [assocSet, assocGet]
    · simp [assocSet, assocGet, h, Ne.symm h]
  | cons p rest ih =>
    obtain ⟨a, b⟩ := p
    by_cases h1 : a = k
    · subst h1
      by_cases h2 : k' = a
      · subst h2; simp [assocSet, assocGet]
      · simp [assocSet, assocGet, h2, Ne.symm h2]
    · by_cases h2 : a = k'
      · subst h2
        simp [assocSet, assocGet, h1, Ne.symm h1, ih]
      · simp [assocSet, assocGet, h1, h2, ih]

theorem assocKeys_cons {α : Type} (a : String) (b : α) (rest : List (String × α)) :
    assocKeys ((a, b) :: rest) = a :: assocKeys rest := rfl

theorem mem_assocKeys_iff_isSome {α : Type} (l : List (String × α)) (k : String) :
    k ∈ assocKeys l ↔ (assocGet l k).isSome := by
  induction l with
  | nil => simp [assocKeys, assocGet]
  | cons p rest ih =>
    obtain ⟨a, b⟩ := p
    rw [assocKeys_cons]
    by_cases h : a = k
    · subst h; simp [assocGet]
    · rw [List.mem_cons, or_iff_right (fun hh : k = a => h hh.symm)]
      rw [show assocGet ((a, b) :: rest) k = if a = k then some b else assocGet rest k from rfl]
      rw [if_neg h]
      exact ih

theorem assocGet_eq_none_of_not_mem {α : Type} (l : List (String × α))
    (k : String) (h : k ∉ assocKeys l) : assocGet l k = none := by
  have := (mem_assocKeys_iff_isSome l k).not.mp h
  exact Option.not_isSome_iff_eq_none.mp this

theorem assocKeys_assocSet_of_mem {α : Type} (l : List (String × α))
    (k : String) (v : α) (h : k ∈ assocKeys l) :
    assocKeys (assocSet l k v) = assocKeys l := by
  induction l with
  | nil => simp [assocKeys] at h
  | cons p rest ih =>
    obtain ⟨a, b⟩ := p
    rw [show assocSet ((a, b) :: rest) k v =
        if a = k then (a, v) :: rest else (a, b) :: assocSet rest k v from rfl]
    by_cases h1 : a = k
    · rw [if_pos h1]; rfl
    · have h2 : k ∈ assocKeys rest := by
        rw [assocKeys_cons] at h
        rcases List.mem_cons.mp h with h3 | h3
        · exact absurd h3.symm h1
        · exact h3
      rw [if_neg h1, assocKeys_cons, assocKeys_cons, ih h2]

theorem assocGet_mem {α : Type} (l : List (String × α)) (k : String) (v : α)
    (h : assocGet l k = some v) : (k, v) ∈ l := by
  induction l with
  | nil => simp [assocGet] at h
  | cons p rest ih =>
    obtain ⟨a, b⟩ := p
    by_cases h1 : a = k
    · subst h1
      simp [assocGet] at h
      subst h
      exact List.mem_cons_self _ _
    · simp [assocGet, h1] at h
      exact List.mem_cons_of_mem _ (ih h)

theorem featureType_of_mem (f : String) (h : f ∈ allFeatureKeys) :
    featureType f = some "str" ∨ featureType f = some "list" := by
  have h1 : (featureType f).isSome :=
    (mem_assocKeys_iff_isSome allFeatures f).mp h
  obtain ⟨t, ht⟩ := Option.isSome_iff_exists.mp h1
  have hmem : (f, t) ∈ allFeatures := assocGet_mem _ _ _ ht
  have hall : ∀ p ∈ allFeatures, p.2 = "str" ∨ p.2 = "list" :=
    forallMemOfAll (by decide)
  rcases hall _ hmem with h2 | h2
  · left; rw [ht]; simp only at h2; rw [h2]
  · right; rw [ht]; simp only at h2; rw [h2]

theorem emptyVal_of_str (f : String) (h : featureType f = some "str") :
    emptyVal f = .s "" := by
  simp [emptyVal, h]

theorem emptyVal_of_list (f : String) (h : featureType f = some "list") :
    emptyVal f = .l [] := by
  simp [emptyVal, h]

theorem checkFeatures_sub (requested : Option (List String)) :
    ∀ f ∈ checkFeatures requested, f ∈ allFeatureKeys := by
  cases requested with
  | none => intro f hf; exact hf
  | some fs =>
    intro f hf
    simp only [checkFeatures] at hf
    by_cases h : fs.isEmpty
    · rw [if_pos h] at hf; exact hf
    · rw [if_neg h] at hf
      exact of_decide_eq_true (List.mem_filter.mp hf).2

theorem checkFeatures_eq_self (fs : List String) (hne : fs ≠ [])
    (hsub : ∀ f ∈ fs, f ∈ allFeatureKeys) : checkFeatures (some fs) = fs := by
  simp only [checkFeatures]
  have hemp : fs.isEmpty = false := by
    cases fs with
    | nil => exact absurd rfl hne
    | cons a l => rfl
  rw [hemp]
  simp only [Bool.false_eq_true, if_false]
  apply List.filter_eq_self.mpr
  intro a ha
  exact decide_eq_true (hsub a ha)

theorem initFeatures_ok (fs : List String) (attrs : PyDict)
    (h : ∀ f ∈ fs, f ∈ allFeatureKeys) :
    ∃ d, initFeatures fs attrs = .ok d := by
  induction fs generalizing attrs with
  | nil => exact ⟨attrs, rfl⟩
  | cons f rest ih =>
    have hrest : ∀ g ∈ rest, g ∈ allFeatureKeys :=
      fun g hg => h g (List.mem_cons_of_mem _ hg)
    rcases featureType_of_mem f (h f (List.mem_cons_self _ _)) with ht | ht <;>
      simp only [initFeatures, ht] <;> simp only [reduceIte] <;> apply ih <;>
      exact hrest

theorem initFeatures_get (fs : List String) (attrs d : PyDict) (k : String)
    (h : ∀ f ∈ fs, f ∈ allFeatureKeys) (hok : initFeatures fs attrs = .ok d) :
    dictGet d k = if k ∈ fs then some (emptyVal k) else dictGet attrs k := by
  induction fs generalizing attrs with
  | nil =>
    simp only [initFeatures] at hok
    cases hok
    simp
  | cons f rest ih =>
    have hrest : ∀ g ∈ rest, g ∈ allFeatureKeys :=
      fun g hg => h g (List.mem_cons_of_mem _ hg)
    have hstep : ∀ v : Value, dictGet (dictSet attrs f v) k =
        if k = f then some v else dictGet attrs k := by
      intro v
      exact assocGet_assocSet attrs f k v
    rcases featureType_of_mem f (h f (List.mem_cons_self _ _)) with ht | ht
    · simp only [initFeatures, ht, reduceIte] at hok
      have := ih (dictSet attrs f (.s "")) hrest hok
      rw [this, hstep]
      by_cases hk1 : k ∈ rest
      · simp [hk1, List.mem_cons]
      · by_cases hk2 : k = f
        · subst hk2
          simp [hk1, emptyVal_of_str k ht]
        · simp [hk1, hk2, List.mem_cons]
    · simp only [initFeatures, ht, reduceIte] at hok
      have := ih (dictSet attrs f (.l [])) hrest hok
      rw [this, hstep]
      by_cases hk1 : k ∈ rest
      · simp [hk1, List.mem_cons]
      · by_cases hk2 : k = f
        · subst hk2
          simp [hk1, emptyVal_of_list k ht]
        · simp [hk1, hk2, List.mem_cons]

theorem initFeatures_mem_keys (fs : List String) (attrs d : PyDict) (k : String)
    (h : ∀ f ∈ fs, f ∈ allFeatureKeys) (hok : initFeatures fs attrs = .ok d) :
    k ∈ dictKeys d ↔ k ∈ fs ∨ k ∈ dictKeys attrs := by
  have hg := initFeatures_get fs attrs d k h hok
  have h1 : k ∈ dictKeys d ↔ (dictGet d k).isSome := mem_assocKeys_iff_isSome d k
  have h2 : k ∈ dictKeys attrs ↔ (dictGet attrs k).isSome :=
    mem_assocKeys_iff_isSome attrs k
  rw [h1, hg]
  by_cases hk : k ∈ fs
  · simp [hk]
  · simp [hk, h2]

theorem processChildren_keys (fs : List String) (cs : List Child) :
    ∀ d : PyDict, (∀ f ∈ fs, f ∈ dictKeys d) →
    dictKeys (processChildren fs cs d).1 = dictKeys d := by
  induction cs with
  | nil => intro d _; rfl
  | cons c rest ih =>
    intro d h
    by_cases hc : c.tag ∈ fs
    · cases hct : childText c with
      | none =>
        simp only [processChildren, if_pos hc, hct]
        exact ih d h
      | some t =>
        by_cases hlen : 0 < t.length
        · cases hft : featureType c.tag with
          | some ft =>
            by_cases hstr : ft = "str"
            · have hkeys : dictKeys (dictSet d c.tag (.s t)) = dictKeys d :=
                assocKeys_assocSet_of_mem d c.tag _ (h c.tag hc)
              have h' : ∀ f ∈ fs, f ∈ dictKeys (dictSet d c.tag (.s t)) := by
                rw [hkeys]; exact h
              simp only [processChildren, if_pos hc, hct, if_pos hlen, hft,
                if_pos hstr]
              rw [ih _ h', hkeys]
            · by_cases hlst : ft = "list"
              · have hkeys : dictKeys (dictSet d c.tag
                    (.l (dictGetList d c.tag ++ [t]))) = dictKeys d :=
                  assocKeys_assocSet_of_mem d c.tag _ (h c.tag hc)
                have h' : ∀ f ∈ fs, f ∈ dictKeys (dictSet d c.tag
                    (.l (dictGetList d c.tag ++ [t]))) := by
                  rw [hkeys]; exact h
                simp only [processChildren, if_pos hc, hct, if_pos hlen, hft,
                  if_neg hstr, if_pos hlst]
                rw [ih _ h', hkeys]
              · simp only [processChildren, if_pos hc, hct, if_pos hlen, hft,
                  if_neg hstr, if_neg hlst]
                exact ih d h
          | none =>
            simp only [processChildren, if_pos hc, hct, if_pos hlen, hft]
            exact ih d h
        · simp only [processChildren, if_pos hc, hct, if_neg hlen]
          exact ih d h
    · simp only [processChildren, if_neg hc]
      exact ih d h

theorem processChildren_get_unwritten (fs : List String) (cs : List Child)
    (k : String) :
    ∀ d : PyDict,
    (∀ c ∈ cs, c.tag = k → ∀ t, childText c = some t → t = "") →
    dictGet (processChildren fs cs d).1 k = dictGet d k := by
  induction cs with
  | nil => intro d _; rfl
  | cons c rest ih =>
    intro d h
    have hrest : ∀ c' ∈ rest, c'.tag = k → ∀ t, childText c' = some t → t = "" :=
      fun c' hc' => h c' (List.mem_cons_of_mem _ hc')
    by_cases hc : c.tag ∈ fs
    · cases hct : childText c with
      | none =>
        simp only [processChildren, if_pos hc, hct]
        exact ih d hrest
      | some t =>
        by_cases hlen : 0 < t.length
        · have htk : c.tag ≠ k := by
            intro hk
            have := h c (List.mem_cons_self _ _) hk t hct
            subst this
            simp at hlen
          have hset : ∀ v : Value, dictGet (dictSet d c.tag v) k = dictGet d k := by
            intro v
            show assocGet (assocSet d c.tag v) k = assocGet d k
            rw [assocGet_assocSet d c.tag k v,
              if_neg (fun hh : k = c.tag => htk hh.symm)]
          cases hft : featureType c.tag with
          | some ft =>
            by_cases hstr : ft = "str"
            · simp only [processChildren, if_pos hc, hct, if_pos hlen, hft,
                if_pos hstr]
              rw [ih _ hrest, hset]
            · by_cases hlst : ft = "list"
              · simp only [processChildren, if_pos hc, hct, if_pos hlen, hft,
                  if_neg hstr, if_pos hlst]
                rw [ih _ hrest, hset]
              · simp only [processChildren, if_pos hc, hct, if_pos hlen, hft,
                  if_neg hstr, if_neg hlst]
                exact ih d hrest
          | none =>
            simp only [processChildren, if_pos hc, hct, if_pos hlen, hft]
            exact ih d hrest
        · simp only [processChildren, if_pos hc, hct, if_neg hlen]
          exact ih d hrest
    · simp only [processChildren, if_neg hc]
      exact ih d hrest

theorem processChildren_count_zero (fs : List String) (cs : List Child)
    (h : ∀ f ∈ fs, f ∈ allFeatureKeys) :
    ∀ d : PyDict, (processChildren fs cs d).2 = 0 := by
  induction cs with
  | nil => intro d; rfl
  | cons c rest ih =>
    intro d
    by_cases hc : c.tag ∈ fs
    · cases hct : childText c with
      | none =>
        simp only [processChildren, if_pos hc, hct]
        exact ih d
      | some t =>
        by_cases hlen : 0 < t.length
        · have hsome : (featureType c.tag).isSome :=
            (mem_assocKeys_iff_isSome allFeatures c.tag).mp (h c.tag hc)
          cases hft : featureType c.tag with
          | some ft =>
            by_cases hstr : ft = "str"
            · simp only [processChildren, if_pos hc, hct, if_pos hlen, hft,
                if_pos hstr]
              exact ih _
            · by_cases hlst : ft = "list"
              · simp only [processChildren, if_pos hc, hct, if_pos hlen, hft,
                  if_neg hstr, if_pos hlst]
                exact ih _
              · simp only [processChildren, if_pos hc, hct, if_pos hlen, hft,
                  if_neg hstr, if_neg hlst]
                exact ih d
          | none =>
            rw [hft] at hsome
            simp at hsome
        · simp only [processChildren, if_pos hc, hct, if_neg hlen]
          exact ih d
    · simp only [processChildren, if_neg hc]
      exact ih d

theorem extractFeatures_ok_parts (e : Element) (fs : List String) (meta : Bool)
    (d : PyDict) (n : Nat) (hok : extractFeatures e fs meta = .ok (d, n)) :
    ∃ base d0, buildBase e meta = .ok base ∧ initFeatures fs base = .ok d0 ∧
      processChildren fs e.children d0 = (d, n) := by
  unfold extractFeatures at hok
  cases hb : buildBase e meta with
  | error m => simp [hb] at hok
  | ok base =>
    simp only [hb] at hok
    cases hi : initFeatures fs base with
    | error m => simp [hi] at hok
    | ok d0 =>
      simp only [hi] at hok
      refine ⟨base, d0, rfl, hi, ?_⟩
      exact Except.ok.inj hok

theorem buildBase_keys (e : Element) (meta : Bool) (base : PyDict)
    (hok : buildBase e meta = .ok base) :
    ∀ k, k ∈ dictKeys base ↔
      (k = "type" ∨ (meta = true ∧ (k = "key" ∨ k = "mdate"))) := by
  intro k
  cases meta with
  | false =>
    simp only [buildBase, Bool.false_eq_true, if_false] at hok
    cases hok
    simp [dictKeys, assocKeys]
  | true =>
    simp only [buildBase, if_true] at hok
    cases hk : assocGet e.attrib "key" with
    | none => rw [hk] at hok; exact absurd hok (by simp)
    | some kv =>
      rw [hk] at hok
      cases hm : assocGet e.attrib "mdate" with
      | none => rw [hm] at hok; exact absurd hok (by simp)
      | some mv =>
        rw [hm] at hok
        cases hok
        simp [dictKeys, assocKeys]

theorem extractFeatures_mem_keys (e : Element) (fs : List String) (meta : Bool)
    (d : PyDict) (n : Nat)
    (hsub : ∀ f ∈ fs, f ∈ allFeatureKeys)
    (hok : extractFeatures e fs meta = .ok (d, n)) :
    ∀ k, k ∈ dictKeys d ↔
      (k = "type" ∨ (meta = true ∧ (k = "key" ∨ k = "mdate")) ∨ k ∈ fs) := by
  obtain ⟨base, d0, hb, hi, hp⟩ := extractFeatures_ok_parts e fs meta d n hok
  have hk0 : ∀ k, k ∈ dictKeys d0 ↔ k ∈ fs ∨ k ∈ dictKeys base :=
    fun k => initFeatures_mem_keys fs base d0 k hsub hi
  have hfs0 : ∀ f ∈ fs, f ∈ dictKeys d0 :=
    fun f hf => (hk0 f).mpr (Or.inl hf)
  have hd : d = (processChildren fs e.children d0).1 := by rw [hp]
  have hkeq : dictKeys d = dictKeys d0 := by
    rw [hd]; exact processChildren_keys fs e.children d0 hfs0
  intro k
  rw [hkeq, hk0 k, buildBase_keys e meta base hb k]
  tauto

theorem extractFeatures_get_unpopulated (e : Element) (fs : List String)
    (meta : Bool) (d : PyDict) (n : Nat)
    (hsub : ∀ f ∈ fs, f ∈ allFeatureKeys)
    (hok : extractFeatures e fs meta = .ok (d, n)) :
    ∀ f ∈ fs, (∀ c ∈ e.children, c.tag = f → ∀ t, childText c = some t → t = "") →
      dictGet d f = some (emptyVal f) := by
  obtain ⟨base, d0, hb, hi, hp⟩ := extractFeatures_ok_parts e fs meta d n hok
  intro f hf hun
  have hd : d = (processChildren fs e.children d0).1 := by rw [hp]
  rw [hd, processChildren_get_unwritten fs e.children f d0 hun,
    initFeatures_get fs base d0 f hsub hi, if_pos hf]

theorem parseAllJsonlLoop_ret (fs : List String) (meta : Bool)
    (pending : List Element) :
    ∀ (ret : List (Element × Bool)) (os : List PyDict)
      (r : List (Element × Bool)),
      parseAllJsonlLoop fs meta pending ret = .ok (os, r) →
      r = ret ∨ ∃ e, r = [(e, true)] := by
  induction pending with
  | nil =>
    intro ret os r h
    simp only [parseAllJsonlLoop] at h
    cases Except.ok.inj h
    left; rfl
  | cons e rest ih =>
    intro ret os r h
    by_cases he : e.tag ∈ allElements
    · simp only [parseAllJsonlLoop, if_pos he] at h
      cases hex : extractFeatures e fs meta with
      | error m => rw [hex] at h; simp at h
      | ok p =>
        obtain ⟨d, nn⟩ := p
        rw [hex] at h
        rw [exceptMap_ok_iff] at h
        obtain ⟨⟨os', r'⟩, hrec, heq⟩ := h
        cases heq
        rcases ih (clearElement e) os' r' hrec with h1 | h1
        · right; exact ⟨e, h1⟩
        · right; exact h1
    · simp only [parseAllJsonlLoop, if_neg he] at h
      rcases ih (clearElement e) os r h with h1 | h1
      · right; exact ⟨e, h1⟩
      · right; exact h1

theorem parseAllDfLoop_ret (fs : List String) (meta : Bool)
    (pending : List Element) :
    ∀ (ret : List (Element × Bool)) (os : List PyDict)
      (r : List (Element × Bool)),
      parseAllDfLoop fs meta pending ret = .ok (os, r) →
      r = ret ++ pending.map (fun e => (e, false)) := by
  induction pending with
  | nil =>
    intro ret os r h
    simp only [parseAllDfLoop] at h
    cases Except.ok.inj h
    simp
  | cons e rest ih =>
    intro ret os r h
    by_cases he : e.tag ∈ allElements
    · simp only [parseAllDfLoop, if_pos he] at h
      cases hex : extractFeatures e fs meta with
      | error m => rw [hex] at h; simp at h
      | ok p =>
        obtain ⟨d, nn⟩ := p
        rw [hex] at h
        rw [exceptMap_ok_iff] at h
        obtain ⟨⟨os', r'⟩, hrec, heq⟩ := h
        cases heq
        rw [ih (ret ++ [(e, false)]) os' r' hrec]
        simp
    · simp only [parseAllDfLoop, if_neg he] at h
      rw [ih (ret ++ [(e, false)]) os r h]
      simp

theorem byYearLoop_filter (y : String) (fs : List String) (meta : Bool)
    (hsub : ∀ f ∈ fs, f ∈ allFeatureKeys) (hyear : "year" ∈ fs)
    (pending : List Element) :
    ∀ (ret1 ret2 : List (Element × Bool)) (os : List PyDict)
      (r : List (Element × Bool)),
      parseAllJsonlLoop fs meta pending ret1 = .ok (os, r) →
      ∃ r2, parseByYearJsonlLoop y fs meta pending ret2 =
        .ok (os.filter (fun d => decide (dictGet d "year" = some (.s y))), r2) := by
  induction pending with
  | nil =>
    intro ret1 ret2 os r h
    simp only [parseAllJsonlLoop] at h
    cases Except.ok.inj h
    exact ⟨ret2, rfl⟩
  | cons e rest ih =>
    intro ret1 ret2 os r h
    by_cases he : e.tag ∈ allElements
    · simp only [parseAllJsonlLoop, if_pos he] at h
      cases hex : extractFeatures e fs meta with
      | error m => rw [hex] at h; simp at h
      | ok p =>
        obtain ⟨d, nn⟩ := p
        rw [hex] at h
        rw [exceptMap_ok_iff] at h
        obtain ⟨⟨os', r'⟩, hrec, heq⟩ := h
        cases heq
        have hksome : (dictGet d "year").isSome := by
          have hmem : "year" ∈ dictKeys d :=
            (extractFeatures_mem_keys e fs meta d nn hsub hex "year").mpr
              (Or.inr (Or.inr hyear))
          exact (mem_assocKeys_iff_isSome d "year").mp hmem
        obtain ⟨v, hv⟩ := Option.isSome_iff_exists.mp hksome
        obtain ⟨r2, hrec2⟩ :=
          ih (clearElement e) (clearElement e) os' r' hrec
        by_cases hvy : v = .s y
        · subst hvy
          refine ⟨r2, ?_⟩
          simp only [parseByYearJsonlLoop, if_pos he, hex, hv, if_pos rfl]
          rw [hrec2]
          have hpred : decide (dictGet d "year" = some (.s y)) = true :=
            decide_eq_true hv
          simp [List.filter, hpred, Except.map]
        · refine ⟨r2, ?_⟩
          simp only [parseByYearJsonlLoop, if_pos he, hex, hv, if_neg hvy]
          rw [hrec2]
          have hpred : decide (dictGet d "year" = some (.s y)) = false := by
            apply decide_eq_false
            rw [hv]
            intro hcon
            exact hvy (Option.some.inj hcon)
          simp [List.filter, hpred]
    · simp only [parseAllJsonlLoop, if_neg he] at h
      obtain ⟨r2, hrec2⟩ := ih (clearElement e) (clearElement e) os r h
      refine ⟨r2, ?_⟩
      simp only [parseByYearJsonlLoop, if_neg he]
      exact hrec2

theorem byYearLoop_error_first (y : String) (fs : List String) (meta : Bool)
    (e : Element) (post : List Element) (d : PyDict) (n : Nat)
    (hrec : e.tag ∈ allElements)
    (hok : extractFeatures e fs meta = .ok (d, n))
    (hnone : dictGet d "year" = none) :
    ∀ (pre : List Element), (∀ x ∈ pre, x.tag ∉ allElements) →
      ∀ ret, parseByYearJsonlLoop y fs meta (pre ++ e :: post) ret =
        .error ("KeyError: year") := by
  intro pre
  induction pre with
  | nil =>
    intro _ ret
    simp only [List.nil_append, parseByYearJsonlLoop, if_pos hrec, hok, hnone]
  | cons x rest ih =>
    intro hall ret
    have hx : x.tag ∉ allElements := hall x (List.mem_cons_self _ _)
    have hrest : ∀ x' ∈ rest, x'.tag ∉ allElements :=
      fun x' hx' => hall x' (List.mem_cons_of_mem _ hx')
    simp only [List.cons_append, parseByYearJsonlLoop, if_neg hx]
    exact ih hrest (clearElement x)

theorem byYearsLoop_error_first (ys : List String) (fs : List String)
    (meta : Bool) (e : Element) (post : List Element) (d : PyDict) (n : Nat)
    (hrec : e.tag ∈ allElements)
    (hok : extractFeatures e fs meta = .ok (d, n))
    (hnone : dictGet d "year" = none) :
    ∀ (pre : List Element), (∀ x ∈ pre, x.tag ∉ allElements) →
      ∀ ret, parseByYearsJsonlLoop ys fs meta (pre ++ e :: post) ret =
        .error ("KeyError: year") := by
  intro pre
  induction pre with
  | nil =>
    intro _ ret
    simp only [List.nil_append, parseByYearsJsonlLoop, if_pos hrec, hok, hnone]
  | cons x rest ih =>
    intro hall ret
    have hx : x.tag ∉ allElements := hall x (List.mem_cons_self _ _)
    have hrest : ∀ x' ∈ rest, x'.tag ∉ allElements :=
      fun x' hx' => hall x' (List.mem_cons_of_mem _ hx')
    simp only [List.cons_append, parseByYearsJsonlLoop, if_neg hx]
    exact ih hrest (clearElement x)

theorem parseAll_jsonl_eq (doc : List Element) (sp : String)
    (features : Option (List String)) (meta : Bool) :
    parseAll doc (some sp) features meta "jsonl" =
      (parseAllJsonlLoop (checkFeatures features) meta doc []).map
        (fun p => p.1) := rfl

theorem parseByYear_jsonl_eq (y : String) (doc : List Element) (sp : String)
    (features : Option (List String)) (meta : Bool) :
    parseByYear y doc (some sp) features meta "jsonl" =
      (parseByYearJsonlLoop y (checkFeatures features) meta doc []).map
        (fun p => p.1) := rfl

theorem parseByYears_jsonl_eq (ys : List String) (doc : List Element)
    (sp : String) (features : Option (List String)) (meta : Bool) :
    parseByYears ys doc (some sp) features meta "jsonl" =
      (parseByYearsJsonlLoop ys (checkFeatures features) meta doc []).map
        (fun p => p.1) := rfl

/-! ## Claim theorems -/

/-- C1 (code evaluation at the failing input): on the pages string 43-23,
whose two dash-parts parse to a = 43 and b = 23 with b smaller than a,
DBLP.__count_pages adds b - a + 1 = -19 to the count instead of the 0
contribution stated by the claim and by the docstring of the function itself
(which says: if negative, return zero), so it returns the string -19
rather than the empty string. -/
theorem countPages_negative_range : countPages (some ("43-23")) = "-19" := by
  decide

/-- C7: the page-count normalizer satisfies the concrete equations:
23-43 normalizes to 21, 51 to 1, I-XXI to the empty string (Roman numerals
carry no digit run), 91A-91A-3 to the empty string (a third dash-part
invalidates the segment), and an absent (None) input to the empty string. -/
theorem countPages_concrete_equations :
    countPages (some ("23-43")) = "21" ∧
    countPages (some ("51")) = "1" ∧
    countPages (some ("I-XXI")) = "" ∧
    countPages (some ("91A-91A-3")) = "" ∧
    countPages none = "" := by decide

/-- C8: extracting the article node with key a1, mdate 2020-01-01 and
children year 2022, pages 23-43 and a title with embedded markup and a
newline, requesting the fields year, pages and title with metadata
included, produces exactly the claimed record: markup tags and newlines
stripped from the title, pages normalized to the count 21, and no KeyError
branch executed. -/
theorem extract_end_to_end_article :
    extractFeatures articleC8 ["year", "pages", "title"] true =
      .ok ([("type", Value.s "article"), ("key", Value.s "a1"),
            ("mdate", Value.s "2020-01-01"), ("year", Value.s "2022"),
            ("pages", Value.s "21"), ("title", Value.s "Foo Bar")], 0) := by
  decide

/-- C10: whenever the requested field set is produced by the
field-validation step DBLP.__check_features, the except-KeyError branch in
the child loop of DBLP.__extract_features is unreachable: its execution
count is 0 for every child list and every dictionary state. -/
theorem extract_keyerror_branch_never_runs :
    ∀ (requested : Option (List String)) (cs : List Child) (d : PyDict),
      (processChildren (checkFeatures requested) cs d).2 = 0 := by
  intro requested cs d
  exact processChildren_count_zero (checkFeatures requested) cs
    (checkFeatures_sub requested) d

/-- C3 counterexample: requesting only nonexistent_field does not produce
the full-schema fallback: DBLP.__check_features returns the empty set,
while the fallback (what an unspecified request resolves to) is the
non-empty full schema key set. -/
theorem checkFeatures_invalid_set_counterexample :
    checkFeatures (some ["nonexistent_field"]) = [] ∧
    checkFeatures none = allFeatureKeys ∧ allFeatureKeys ≠ [] := by decide

/-- C3 (amended): an unspecified (None) or empty requested field set
resolves to the full schema; a non-empty requested set keeps exactly its
names that belong to the schema and drops the rest with a warning — hence
an entirely invalid non-empty set such as only nonexistent_field yields
the empty field set, not the full-schema fallback. -/
theorem checkFeatures_validation (fs : List String) (f : String)
    (hne : fs ≠ []) :
    (f ∈ checkFeatures (some fs) ↔ (f ∈ fs ∧ f ∈ allFeatureKeys)) ∧
    (checkFeatures none = allFeatureKeys ∧
     checkFeatures (some []) = allFeatureKeys ∧
     checkFeatures (some ["nonexistent_field"]) = []) := by
  refine ⟨?_, rfl, rfl, by decide⟩
  simp only [checkFeatures]
  have hemp : fs.isEmpty = false := by
    cases fs with
    | nil => exact absurd rfl hne
    | cons a l => rfl
  rw [hemp]
  simp only [Bool.false_eq_true, if_false]
  rw [List.mem_filter]
  simp

/-- C3 witness: the amended characterization applied to the concrete
request containing one valid name (year) and one invalid name (bogus). -/
theorem checkFeatures_validation_witness :
    ((["year", "bogus"] : List String) ≠ []) ∧
    (("year" ∈ checkFeatures (some ["year", "bogus"]) ↔
      ("year" ∈ (["year", "bogus"] : List String) ∧
       "year" ∈ allFeatureKeys)) ∧
     (checkFeatures none = allFeatureKeys ∧
      checkFeatures (some []) = allFeatureKeys ∧
      checkFeatures (some ["nonexistent_field"]) = [])) :=
  ⟨by decide, checkFeatures_validation ["year", "bogus"] "year" (by decide)⟩

/-- C2: for every record node and every validated requested field set, the
keys of the extracted record are exactly the requested fields plus type,
and additionally key and mdate exactly when metadata inclusion is
requested; and every requested field none of whose children carries a
non-empty derived text keeps its cardinality-appropriate empty value
(empty string for scalar, empty list for multi-valued). -/
theorem extract_record_key_set (e : Element) (fs : List String) (meta : Bool)
    (d : PyDict) (n : Nat)
    (hsub : ∀ f ∈ fs, f ∈ allFeatureKeys)
    (hok : extractFeatures e fs meta = .ok (d, n)) :
    (∀ k, k ∈ dictKeys d ↔
      (k = "type" ∨ (meta = true ∧ (k = "key" ∨ k = "mdate")) ∨ k ∈ fs)) ∧
    (∀ f ∈ fs,
      (∀ c ∈ e.children, c.tag = f → ∀ t, childText c = some t → t = "") →
      dictGet d f = some (emptyVal f)) :=
  ⟨extractFeatures_mem_keys e fs meta d n hsub hok,
   extractFeatures_get_unpopulated e fs meta d n hsub hok⟩

/-- C2 witness: the key-set invariant applied to a concrete article with a
populated year field and an unpopulated multi-valued author field. -/
theorem extract_record_key_set_witness :
    (extractFeatures elY1 ["year", "author"] false =
      .ok ([("type", Value.s "article"), ("year", Value.s "2022"),
            ("author", Value.l [])], 0)) ∧
    ((∀ k, k ∈ dictKeys [("type", Value.s "article"), ("year", Value.s "2022"),
        ("author", Value.l [])] ↔
      (k = "type" ∨ (false = true ∧ (k = "key" ∨ k = "mdate")) ∨
        k ∈ (["year", "author"] : List String))) ∧
     (∀ f ∈ (["year", "author"] : List String),
      (∀ c ∈ elY1.children, c.tag = f → ∀ t, childText c = some t → t = "") →
      dictGet [("type", Value.s "article"), ("year", Value.s "2022"),
        ("author", Value.l [])] f = some (emptyVal f))) :=
  ⟨by decide,
   extract_record_key_set elY1 ["year", "author"] false
     [("type", Value.s "article"), ("year", Value.s "2022"),
      ("author", Value.l [])] 0
     (forallMemOfAll (by decide)) (by decide)⟩

/-- C4 counterexample: running the dataframe loop of DBLP.parse_all over a
two-record document ends with both processed nodes still attached to the
parent and uncleared (flag false), so the dataframe mode does not release
processed nodes before advancing and the retained count grows with the
document instead of staying bounded. -/
theorem dataframe_loop_retains_all_nodes :
    parseAllDfLoop [] false [elA, elB] [] =
      .ok ([[("type", Value.s "article")], [("type", Value.s "article")]],
           [(elA, false), (elB, false)]) ∧
    ¬ ([(elA, false), (elB, false)] : List (Element × Bool)).length ≤ 1 := by
  decide

/-- C4 (amended): in jsonl mode DBLP.parse_all clears each processed node
and deletes all preceding siblings before advancing, so at most one
(cleared) processed node stays attached at any time; in dataframe mode no
release happens: every traversed node remains attached to the parent,
uncleared. -/
theorem traversal_release_by_mode (fs : List String) (meta : Bool)
    (doc : List Element) (os os' : List PyDict)
    (r r' : List (Element × Bool))
    (hJ : parseAllJsonlLoop fs meta doc [] = .ok (os, r))
    (hD : parseAllDfLoop fs meta doc [] = .ok (os', r')) :
    (r.length ≤ 1 ∧ ∀ p ∈ r, p.2 = true) ∧
    r' = doc.map (fun e => (e, false)) := by
  constructor
  · rcases parseAllJsonlLoop_ret fs meta doc [] os r hJ with h1 | ⟨e, h1⟩ <;>
      subst h1 <;> exact ⟨by simp, by simp⟩
  · simpa using parseAllDfLoop_ret fs meta doc [] os' r' hD

/-- C4 witness: the amended release behavior on a concrete single-record
document, in both output modes. -/
theorem traversal_release_by_mode_witness :
    (parseAllJsonlLoop [] false [elA] [] =
      .ok ([[("type", Value.s "article")]], [(elA, true)])) ∧
    (parseAllDfLoop [] false [elA] [] =
      .ok ([[("type", Value.s "article")]], [(elA, false)])) ∧
    ((([(elA, true)] : List (Element × Bool)).length ≤ 1 ∧
      ∀ p ∈ ([(elA, true)] : List (Element × Bool)), p.2 = true) ∧
     ([(elA, false)] : List (Element × Bool)) =
       [elA].map (fun e => (e, false))) :=
  ⟨by decide, by decide,
   traversal_release_by_mode [] false [elA]
     [[("type", Value.s "article")]] [[("type", Value.s "article")]]
     [(elA, true)] [(elA, false)] (by decide) (by decide)⟩

/-- C6: an output mode outside jsonl and dataframe makes each parse entry
point return ValueError, and jsonl mode with no save path supplied returns
ValueError; in both cases the error is produced for every document,
independent of its content, and the result carries no extracted or written
record. -/
theorem parse_config_errors (doc : List Element) (sp : Option String)
    (f : Option (List String)) (m : Bool) (output : String) (y : String)
    (ys : List String)
    (h : output ∉ (["jsonl", "dataframe"] : List String)) :
    (parseAll doc sp f m output = .error invalidOutputMsg ∧
     parseByYear y doc sp f m output = .error invalidOutputMsg ∧
     parseByYears ys doc sp f m output = .error invalidOutputMsg) ∧
    (parseAll doc none f m "jsonl" = .error noSavePathMsg ∧
     parseByYear y doc none f m "jsonl" = .error noSavePathMsg ∧
     parseByYears ys doc none f m "jsonl" = .error noSavePathMsg) := by
  refine ⟨⟨?_, ?_, ?_⟩, rfl, rfl, rfl⟩
  · simp only [parseAll, if_pos h]
  · simp only [parseByYear, if_pos h]
  · simp only [parseByYears, if_pos h]

/-- C6 witness: the configuration errors at the concrete invalid mode csv,
for a concrete document whose record would otherwise be extracted. -/
theorem parse_config_errors_witness :
    (("csv" : String) ∉ (["jsonl", "dataframe"] : List String)) ∧
    ((parseAll [elA] (some "out") none false "csv" = .error invalidOutputMsg ∧
      parseByYear "2022" [elA] (some "out") none false "csv" =
        .error invalidOutputMsg ∧
      parseByYears ["2022"] [elA] (some "out") none false "csv" =
        .error invalidOutputMsg) ∧
     (parseAll [elA] none none false "jsonl" = .error noSavePathMsg ∧
      parseByYear "2022" [elA] none none false "jsonl" =
        .error noSavePathMsg ∧
      parseByYears ["2022"] [elA] none none false "jsonl" =
        .error noSavePathMsg)) :=
  ⟨by decide,
   parse_config_errors [elA] (some "out") none false "csv" "2022" ["2022"]
     (by decide)⟩

/-- C5: with a validated requested field set that contains year, a record
appears in the jsonl output of DBLP.parse_by_year exactly when its
extracted year field is string-equal to the requested year: the by-year
output is the parse_all output filtered by exact string equality on year,
so textually different year strings (even numerically equal ones) are
discarded. -/
theorem parse_by_year_exact_string_match (y : String) (doc : List Element)
    (fs : List String) (meta : Bool) (sp : String) (rs : List PyDict)
    (hsub : ∀ f ∈ fs, f ∈ allFeatureKeys) (hyear : "year" ∈ fs)
    (hne : fs ≠ [])
    (hok : parseAll doc (some sp) (some fs) meta "jsonl" = .ok rs) :
    parseByYear y doc (some sp) (some fs) meta "jsonl" =
      .ok (rs.filter (fun d => decide (dictGet d "year" = some (.s y)))) ∧
    (∀ r, r ∈ rs.filter (fun d => decide (dictGet d "year" = some (.s y))) ↔
      (r ∈ rs ∧ dictGet r "year" = some (.s y))) := by
  have hcf : checkFeatures (some fs) = fs := checkFeatures_eq_self fs hne hsub
  rw [parseAll_jsonl_eq, hcf] at hok
  rw [exceptMap_ok_iff] at hok
  obtain ⟨⟨os, r⟩, hloop, hos⟩ := hok
  simp only at hos
  subst hos
  obtain ⟨r2, h2⟩ := byYearLoop_filter y fs meta hsub hyear doc [] [] os r hloop
  constructor
  · rw [parseByYear_jsonl_eq, hcf, h2]
    rfl
  · intro rr
    rw [List.mem_filter, decide_eq_true_eq]

/-- C5 witness: the exact-string year filter on a concrete document with
one record whose year is 2022 and one whose year is the numerically equal
but textually different 02022; only the first survives. -/
theorem parse_by_year_exact_string_match_witness :
    ((∀ f2 ∈ (["year"] : List String), f2 ∈ allFeatureKeys) ∧
     "year" ∈ (["year"] : List String) ∧ (["year"] : List String) ≠ [] ∧
     parseAll [elY1, elY2] (some "out") (some ["year"]) false "jsonl" =
       .ok [[("type", Value.s "article"), ("year", Value.s "2022")],
            [("type", Value.s "article"), ("year", Value.s "02022")]]) ∧
    (parseByYear "2022" [elY1, elY2] (some "out") (some ["year"]) false
        "jsonl" =
      .ok (([[("type", Value.s "article"), ("year", Value.s "2022")],
             [("type", Value.s "article"), ("year", Value.s "02022")]] :
          List PyDict).filter
        (fun d => decide (dictGet d "year" = some (.s "2022")))) ∧
     (∀ r, r ∈ (([[("type", Value.s "article"), ("year", Value.s "2022")],
             [("type", Value.s "article"), ("year", Value.s "02022")]] :
          List PyDict).filter
        (fun d => decide (dictGet d "year" = some (.s "2022")))) ↔
      (r ∈ ([[("type", Value.s "article"), ("year", Value.s "2022")],
             [("type", Value.s "article"), ("year", Value.s "02022")]] :
          List PyDict) ∧ dictGet r "year" = some (.s "2022")))) :=
  ⟨⟨forallMemOfAll (by decide), by decide, by decide, by decide⟩,
   parse_by_year_exact_string_match "2022" [elY1, elY2] ["year"] false "out"
     [[("type", Value.s "article"), ("year", Value.s "2022")],
      [("type", Value.s "article"), ("year", Value.s "02022")]]
     (forallMemOfAll (by decide)) (by decide) (by decide) (by decide)⟩

/-- C9: for every valid non-empty requested field set that does not contain
year, both DBLP.parse_by_year and DBLP.parse_by_years in jsonl mode abort
with an uncaught KeyError at the first recognized record (any earlier
unrecognized siblings are skipped), because the year filter reads the
extracted record at key year while only requested fields are initialised. -/
theorem parse_missing_year_keyerror (y : String) (ys : List String)
    (pre post : List Element) (e : Element) (fs : List String) (meta : Bool)
    (sp : String) (d : PyDict) (n : Nat)
    (hsub : ∀ f ∈ fs, f ∈ allFeatureKeys) (hne : fs ≠ [])
    (hyear : "year" ∉ fs)
    (hpre : ∀ x ∈ pre, x.tag ∉ allElements) (hrec : e.tag ∈ allElements)
    (hok : extractFeatures e fs meta = .ok (d, n)) :
    parseByYear y (pre ++ e :: post) (some sp) (some fs) meta "jsonl" =
      .error ("KeyError: year") ∧
    parseByYears ys (pre ++ e :: post) (some sp) (some fs) meta "jsonl" =
      .error ("KeyError: year") := by
  have hcf : checkFeatures (some fs) = fs := checkFeatures_eq_self fs hne hsub
  have hnone : dictGet d "year" = none := by
    apply assocGet_eq_none_of_not_mem
    intro hmem
    rcases (extractFeatures_mem_keys e fs meta d n hsub hok "year").mp hmem with
      h1 | h1 | h1
    · exact absurd h1 (by decide)
    · rcases h1.2 with h2 | h2 <;> exact absurd h2 (by decide)
    · exact hyear h1
  constructor
  · rw [parseByYear_jsonl_eq, hcf,
      byYearLoop_error_first y fs meta e post d n hrec hok hnone pre hpre []]
    rfl
  · rw [parseByYears_jsonl_eq, hcf,
      byYearsLoop_error_first ys fs meta e post d n hrec hok hnone pre hpre []]
    rfl

/-- C9 witness: requesting only the valid field title (no year) makes both
by-year entry points fail with KeyError at the first recognized record of a
concrete document that starts with an unrecognized node. -/
theorem parse_missing_year_keyerror_witness :
    ((∀ f2 ∈ (["title"] : List String), f2 ∈ allFeatureKeys) ∧
     (["title"] : List String) ≠ [] ∧ "year" ∉ (["title"] : List String) ∧
     (∀ x ∈ [elOther], x.tag ∉ allElements) ∧ elA.tag ∈ allElements ∧
     extractFeatures elA ["title"] false =
       .ok ([("type", Value.s "article"), ("title", Value.s "")], 0)) ∧
    (parseByYear "2022" ([elOther] ++ elA :: []) (some "out") (some ["title"])
        false "jsonl" = .error ("KeyError: year") ∧
     parseByYears ["2022"] ([elOther] ++ elA :: []) (some "out")
        (some ["title"]) false "jsonl" = .error ("KeyError: year")) :=
  ⟨⟨forallMemOfAll (by decide), by decide, by decide,
    forallMemOfAll (by decide), by decide, by decide⟩,
   parse_missing_year_keyerror "2022" ["2022"] [elOther] [] elA ["title"]
     false "out" [("type", Value.s "article"), ("title", Value.s "")] 0
     (forallMemOfAll (by decide)) (by decide) (by decide)
     (forallMemOfAll (by decide)) (by decide) (by decide)⟩
